import Mathlib

/-!
# Verification of the `globe-component` overlay and projection logic

A shallow embedding of `src/globe-component.js` (the labelled-arcs revision,
the first document in the file): the overlay mutation API (`addLocation`,
`removeLocation`, `addArc`, `removeArc`, `updateArc`), the projection /
zoom state (`handleZoom`, `setZoom`, `getZoom`, the drag handler installed
by `makeGlobeDraggable`), the fit-to-view computation
(`adjustProjectionToFitLocations`) and the per-render visibility culling of
points (`highlightPoints`) and arcs (`drawArcs`).

JavaScript numbers in the discrete API model are rendered as rationals
(the values parsed from JSON attributes); the spherical-geometry pipeline is
modelled over the real numbers, with `d3.geoDistance` as the angle between
the unit direction vectors of the two coordinates and `d3.geoCentroid` of a
point collection represented by the (un-normalised) sum of those direction
vectors — the angle taken against that sum is the same as against the
normalised centroid d3 reports.
-/

namespace Globe

/-- A location as held in `this.locations`: a name and the `coordinates`
array parsed from JSON (the code destructures it as `[lon, lat]` after
checking it is a two-element array). -/
structure Location where
  name : String
  coordinates : List ℚ
deriving DecidableEq

/-- An arc of `this.arcs`: `{source, target, color, label}`; `color` may be
absent (the renderer substitutes `'blue'`). -/
structure Arc where
  source : String
  target : String
  color : Option String
  label : String
deriving DecidableEq

/-- The component state the overlay mutation API reads and writes:
`this.locations`, `this.arcs`, and the `console.warn` messages emitted so
far (recorded so that "a warning is recorded and the operation is a no-op"
is statable). -/
structure GlobeState where
  locations : List Location
  arcs : List Arc
  warnings : List String
deriving DecidableEq

/-- `addLocation(location)` (globe-component.js lines 648-659): accept only
a two-element coordinates array; reject out-of-range longitude/latitude
with a warning; otherwise append the location. -/
def addLocation (s : GlobeState) (loc : Location) : GlobeState :=
  match loc.coordinates with
  | [lon, lat] =>
    if lon < -180 ∨ lon > 180 ∨ lat < -90 ∨ lat > 90 then
      { s with warnings := s.warnings ++ ["Invalid longitude or latitude values"] }
    else
      { s with locations := s.locations ++ [loc] }
  | _ => { s with warnings := s.warnings ++ ["Invalid location format"] }

/-- `removeLocation(name)` (lines 665-670): drop every location with that
name and every arc whose source or target is that name. -/
def removeLocation (s : GlobeState) (name : String) : GlobeState :=
  { s with
    locations := s.locations.filter (fun loc => loc.name != name),
    arcs := s.arcs.filter (fun arc => arc.source != name && arc.target != name) }

/-- `addArc(arc)` (lines 676-706): require source, target and label to be
present (a JavaScript falsy check; a missing string field is modelled as
`""`), require both referenced locations to exist, require the label to be
new; each failed check warns and leaves the state as it was, success
appends the arc. (The subsequent `adjustProjectionToFitLocations()` call on
the success path acts on the projection, modelled separately below.) -/
def addArc (s : GlobeState) (arc : Arc) : GlobeState :=
  if arc.source = "" ∨ arc.target = "" ∨ arc.label = "" then
    { s with warnings := s.warnings ++ ["Arc must have source, target, and label"] }
  else if (s.locations.find? (fun loc => loc.name == arc.source)).isNone ∨
          (s.locations.find? (fun loc => loc.name == arc.target)).isNone then
    { s with warnings := s.warnings ++ ["Source or target location not found for arc"] }
  else if (s.arcs.find? (fun a => a.label == arc.label)).isSome then
    { s with warnings := s.warnings ++ ["Arc with the same label already exists"] }
  else
    { s with arcs := s.arcs ++ [arc] }

/-- `removeArc(label)` (lines 712-714): drop every arc with that label. -/
def removeArc (s : GlobeState) (label : String) : GlobeState :=
  { s with arcs := s.arcs.filter (fun arc => arc.label != label) }

/-- Overwrite the colour and label of the arc at a given index, as
`this.arcs[arcIndex].color = newColor; this.arcs[arcIndex].label = newLabel`
does. -/
def setArcAt : List Arc → Nat → Option String → String → List Arc
  | [], _, _, _ => []
  | a :: rest, 0, c, l => { a with color := c, label := l } :: rest
  | a :: rest, n + 1, c, l => a :: setArcAt rest n c l

/-- `updateArc(source, target, newColor, newLabel)` (lines 723-747): warn
and do nothing when no arc or several arcs match the source/target pair;
otherwise overwrite the matching arc's colour and label in place — with no
check that `newLabel` is unused by another arc. -/
def updateArc (s : GlobeState) (source target : String)
    (newColor : Option String) (newLabel : String) : GlobeState :=
  let matching := s.arcs.filter (fun arc => arc.source == source && arc.target == target)
  if matching.length = 0 then
    { s with warnings := s.warnings ++ ["No arc found"] }
  else if 1 < matching.length then
    { s with warnings := s.warnings ++ ["Multiple arcs found"] }
  else
    match s.arcs.findIdx? (fun arc => arc.source == source && arc.target == target) with
    | some i => { s with arcs := setArcAt s.arcs i newColor newLabel }
    | none => s

/-! ## Projection state, zoom and drag -/

noncomputable section

/-- The mutable projection state of `d3.geoOrthographic()` as the component
uses it: a two-angle rotation, a scale factor and a translation. -/
structure Projection where
  rotate : ℝ × ℝ
  scale : ℝ
  translate : ℝ × ℝ

/-- The zoom behaviour's configured `scaleExtent` (`[minScale, maxScale]`). -/
structure ZoomBehavior where
  scaleExtent : ℝ × ℝ

/-- `getZoom()` (lines 640-642): the projection's current scale. -/
def getZoom (p : Projection) : ℝ := p.scale

/-- `handleZoom(event)` (lines 270-281): clamp the transform's scale `k`
into the zoom behaviour's scale extent and apply it to the projection. -/
def handleZoom (z : ZoomBehavior) (p : Projection) (k : ℝ) : Projection :=
  { p with scale := max z.scaleExtent.1 (min k z.scaleExtent.2) }

/-- `setZoom(zoomLevel)` (lines 628-634): apply `d3.zoomIdentity.scale(k)`
through the zoom behaviour with an eased transition; the dispatched zoom
event reaches `handleZoom` with that `k`, so the final projection state is
the clamped one. -/
def setZoom (z : ZoomBehavior) (p : Projection) (k : ℝ) : Projection :=
  handleZoom z p k

/-- The `'drag'` handler installed by `makeGlobeDraggable()` (lines
451-489): for a pointer delta `(dx, dy)` it reads the current zoom via
`getZoom()`, forms `rotationFactor = 100 / currentZoom`, and adds
`((dx / 2) * rotationFactor, -(dy / 2) * rotationFactor)` to the current
rotation. -/
def makeGlobeDraggableOnDrag (p : Projection) (dx dy : ℝ) : Projection :=
  let rotationFactor := 100 / getZoom p
  { p with rotate :=
      (p.rotate.1 + dx / 2 * rotationFactor,
       p.rotate.2 - dy / 2 * rotationFactor) }

/-! ## Spherical geometry (d3-geo primitives over ℝ)

Coordinates are `(longitude, latitude)` pairs in degrees, as everywhere in
the source. -/

/-- Degrees to radians. -/
def degToRad (d : ℝ) : ℝ := d * (Real.pi / 180)

/-- The unit direction vector of a `(lon, lat)` coordinate:
`(cos φ cos λ, cos φ sin λ, sin φ)`. -/
def toVec (c : ℝ × ℝ) : ℝ × ℝ × ℝ :=
  (Real.cos (degToRad c.2) * Real.cos (degToRad c.1),
   Real.cos (degToRad c.2) * Real.sin (degToRad c.1),
   Real.sin (degToRad c.2))

/-- Componentwise sum of 3-vectors. -/
def add3 (v w : ℝ × ℝ × ℝ) : ℝ × ℝ × ℝ :=
  (v.1 + w.1, v.2.1 + w.2.1, v.2.2 + w.2.2)

/-- Euclidean inner product on 3-vectors. -/
def dot3 (v w : ℝ × ℝ × ℝ) : ℝ :=
  v.1 * w.1 + v.2.1 * w.2.1 + v.2.2 * w.2.2

/-- Euclidean norm on 3-vectors. -/
def norm3 (v : ℝ × ℝ × ℝ) : ℝ := Real.sqrt (dot3 v v)

/-- The angle between two 3-vectors. -/
def angleBetween (v w : ℝ × ℝ × ℝ) : ℝ :=
  Real.arccos (dot3 v w / (norm3 v * norm3 w))

/-- `d3.geoDistance(a, b)`: the great-circle (angular) distance between two
coordinates, i.e. the angle between their unit direction vectors, in
radians. -/
def geoDistance (a b : ℝ × ℝ) : ℝ := angleBetween (toVec a) (toVec b)

/-- The sum of the direction vectors of a coordinate list: the direction of
`d3.geoCentroid` of the corresponding point collection (d3 normalises this
sum and converts it back to spherical coordinates). -/
def centroidVec (locs : List (ℝ × ℝ)) : ℝ × ℝ × ℝ :=
  (locs.map toVec).foldl add3 (0, 0, 0)

/-- Two-argument arctangent via the complex argument:
`atan2 y x = Complex.arg (x + y·i)`. -/
def atan2 (y x : ℝ) : ℝ := Complex.arg ⟨x, y⟩

/-- Radians to degrees. -/
def radToDeg (r : ℝ) : ℝ := r * (180 / Real.pi)

/-- `d3.geoCentroid` of the point collection of a coordinate list, as a
`(lon, lat)` pair in degrees: the normalised vector sum converted back to
spherical coordinates. -/
def geoCentroid (locs : List (ℝ × ℝ)) : ℝ × ℝ :=
  let v := centroidVec locs
  (radToDeg (atan2 v.2.1 v.1), radToDeg (Real.arcsin (v.2.2 / norm3 v)))

/-- `d3.geoDistance(centroid, coords)` for the centroid of `locs`: the
angle between the centroid direction (the un-normalised vector sum, which
has the same direction) and the coordinate's direction vector. -/
def centroidDist (locs : List (ℝ × ℝ)) (c : ℝ × ℝ) : ℝ :=
  angleBetween (centroidVec locs) (toVec c)

/-- The `maxDistance` loop of `adjustProjectionToFitLocations` (lines
513-517): starting from `0`, take the maximum of the centroid-to-location
distances. -/
def maxCentroidDist (locs : List (ℝ × ℝ)) : ℝ :=
  (locs.map (centroidDist locs)).foldl max 0

/-- `maxDistance = Math.min(maxDistance, Math.PI / 2)` (line 520). -/
def clampedMaxDist (locs : List (ℝ × ℝ)) : ℝ :=
  min (maxCentroidDist locs) (Real.pi / 2)

/-- `const marginFactor = 0.8` (line 523). -/
def marginFactor : ℝ := 0.8

/-- `requiredScale = (marginFactor * radius) / Math.sin(maxDistance)` with
`radius = Math.min(width, height) / 2` (lines 524-525). -/
def requiredScale (locs : List (ℝ × ℝ)) (width height : ℝ) : ℝ :=
  marginFactor * (min width height / 2) / Real.sin (clampedMaxDist locs)

/-- `adjustProjectionToFitLocations()` (lines 494-554) as a transformer of
the projection and zoom state, given the location coordinates and the
viewport size: an empty location list returns immediately; otherwise the
rotation is centred on the centroid, the scale becomes `requiredScale`
(`finalScale` is `requiredScale` alone, line 530), and the zoom scale
extent becomes `[finalScale / 10, finalScale * 3]`. -/
def adjustProjectionToFitLocations (p : Projection) (z : ZoomBehavior)
    (locs : List (ℝ × ℝ)) (width height : ℝ) : Projection × ZoomBehavior :=
  if locs.length = 0 then (p, z)
  else
    let c := geoCentroid locs
    let finalScale := requiredScale locs width height
    ({ p with rotate := (-c.1, -c.2), scale := finalScale },
     { scaleExtent := (finalScale / 10, finalScale * 3) })

/-! ## Render-pass visibility culling -/

/-- A location as the renderer sees it: a name and real coordinates. -/
structure GeoLocation where
  name : String
  coords : ℝ × ℝ

/-- The view center: the projection's rotation is `[-lon, -lat]` of the
centred coordinate, and the culling tests use
`d3.geoDistance(coords, [-rotate[0], -rotate[1]])`. -/
def viewCenter (rotate : ℝ × ℝ) : ℝ × ℝ := (-rotate.1, -rotate.2)

open Classical in
/-- The per-location body of `highlightPoints()` (lines 304-345): the point
(with its label) is appended iff its angular distance from the view center
is strictly less than `π / 2`. -/
def renderPoint (rotate : ℝ × ℝ) (loc : GeoLocation) : Option GeoLocation :=
  if geoDistance loc.coords (viewCenter rotate) < Real.pi / 2 then some loc
  else none

/-- `highlightPoints()`: the locations actually drawn in one render pass. -/
def highlightPoints (rotate : ℝ × ℝ) (locs : List GeoLocation) : List GeoLocation :=
  locs.filterMap (renderPoint rotate)

open Classical in
/-- The per-arc path computation of `drawArcs()` (lines 387-415): resolve
both endpoint locations by name (a missing one yields `null`, i.e. no
path); skip the arc when either endpoint's angular distance from the view
center exceeds `π / 2` (`sourceAngle > Math.PI / 2 || targetAngle >
Math.PI / 2`); otherwise the whole interpolated great-circle path between
the two endpoints is drawn, represented here by its endpoint pair. -/
def renderArc (locs : List GeoLocation) (rotate : ℝ × ℝ) (arc : Arc) :
    Option (GeoLocation × GeoLocation) :=
  match locs.find? (fun l => l.name == arc.source),
        locs.find? (fun l => l.name == arc.target) with
  | some s, some t =>
      if geoDistance s.coords (viewCenter rotate) > Real.pi / 2 ∨
         geoDistance t.coords (viewCenter rotate) > Real.pi / 2 then none
      else some (s, t)
  | _, _ => none

/-- `drawArcs()`: the arcs actually drawn in one render pass. -/
def drawArcs (locs : List GeoLocation) (rotate : ℝ × ℝ) (arcs : List Arc) :
    List (GeoLocation × GeoLocation) :=
  arcs.filterMap (renderArc locs rotate)

end

/-- A concrete component state: four locations and two arcs with distinct
labels, used by the concrete-instance theorems. -/
def sampleState : GlobeState :=
  { locations :=
      [⟨"A", [0, 0]⟩, ⟨"B", [10, 10]⟩, ⟨"C", [20, 20]⟩, ⟨"D", [30, 30]⟩],
    arcs := [⟨"A", "B", none, "l1"⟩, ⟨"C", "D", none, "l2"⟩],
    warnings := [] }

/-! ## Helper lemmas -/

lemma foldl_max_init_le (l : List ℝ) (a : ℝ) : a ≤ l.foldl max a := by
  induction l generalizing a with
  | nil => exact le_refl a
  | cons x t ih => exact le_trans (le_max_left a x) (ih (max a x))

lemma le_foldl_max (l : List ℝ) (a x : ℝ) : x ∈ l → x ≤ l.foldl max a := by
  induction l generalizing a with
  | nil => intro hx; cases hx
  | cons y t ih =>
    intro hx
    rcases List.mem_cons.mp hx with h | h
    · subst h
      exact le_trans (le_max_right a x) (foldl_max_init_le t (max a x))
    · exact ih (max a y) h

lemma foldl_max_zero (l : List ℝ) (h : ∀ x ∈ l, x = 0) : l.foldl max 0 = 0 := by
  induction l with
  | nil => rfl
  | cons x t ih =>
    have hx : x = 0 := h x (List.mem_cons_self x t)
    rw [List.foldl_cons, hx, max_self]
    exact ih fun y hy => h y (List.mem_cons_of_mem x hy)

lemma dot3_toVec_self (c : ℝ × ℝ) : dot3 (toVec c) (toVec c) = 1 := by
  have h1 := Real.sin_sq_add_cos_sq (degToRad c.2)
  have h2 := Real.sin_sq_add_cos_sq (degToRad c.1)
  simp only [toVec, dot3]
  nlinarith [h1, h2]

lemma norm3_toVec (c : ℝ × ℝ) : norm3 (toVec c) = 1 := by
  rw [norm3, dot3_toVec_self, Real.sqrt_one]

lemma angleBetween_toVec_self (c : ℝ × ℝ) :
    angleBetween (toVec c) (toVec c) = 0 := by
  rw [angleBetween, dot3_toVec_self, norm3_toVec]
  norm_num [Real.arccos_one]

lemma geoDistance_self (c : ℝ × ℝ) : geoDistance c c = 0 :=
  angleBetween_toVec_self c

lemma degToRad_zero : degToRad 0 = 0 := by simp [degToRad]

lemma degToRad_ninety : degToRad 90 = Real.pi / 2 := by
  rw [degToRad]; ring

lemma toVec_zero_zero : toVec (0, 0) = (1, 0, 0) := by
  simp [toVec, degToRad_zero]

lemma toVec_ninety_zero : toVec (90, 0) = (0, 1, 0) := by
  simp [toVec, degToRad_zero, degToRad_ninety]

lemma geoDistance_ninety_zero :
    geoDistance (90, 0) (0, 0) = Real.pi / 2 := by
  rw [geoDistance, toVec_ninety_zero, toVec_zero_zero, angleBetween]
  norm_num [dot3, norm3, Real.arccos_zero]

lemma centroidVec_single (c : ℝ × ℝ) : centroidVec [c] = toVec c := by
  simp [centroidVec, add3]

lemma centroidDist_single (c : ℝ × ℝ) : centroidDist [c] c = 0 := by
  rw [centroidDist, centroidVec_single]
  exact angleBetween_toVec_self c

/-! ## The claims -/

/-- C5: `addArc` rejects an arc whose label duplicates an existing arc's
label — the arcs and locations are unchanged and exactly one warning is
recorded — and it appends the arc precisely when source, target and label
are present, both referenced locations exist, and no existing arc carries
the same label. -/
theorem addArc_duplicate_label_rejected_and_append_iff
    (s : GlobeState) (arc : Arc) :
    ((∃ a ∈ s.arcs, a.label = arc.label) →
      (addArc s arc).arcs = s.arcs ∧
      (addArc s arc).locations = s.locations ∧
      (addArc s arc).warnings.length = s.warnings.length + 1) ∧
    ((addArc s arc).arcs = s.arcs ++ [arc] ↔
      (arc.source ≠ "" ∧ arc.target ≠ "" ∧ arc.label ≠ "" ∧
       (∃ l ∈ s.locations, l.name = arc.source) ∧
       (∃ l ∈ s.locations, l.name = arc.target) ∧
       ∀ a ∈ s.arcs, a.label ≠ arc.label)) := by
  have hsrc : ((s.locations.find? (fun loc => loc.name == arc.source)).isNone) ↔
      ¬ ∃ l ∈ s.locations, l.name = arc.source := by
    simp [Option.isNone_iff_eq_none, List.find?_eq_none]
  have htgt : ((s.locations.find? (fun loc => loc.name == arc.target)).isNone) ↔
      ¬ ∃ l ∈ s.locations, l.name = arc.target := by
    simp [Option.isNone_iff_eq_none, List.find?_eq_none]
  have hdup : ((s.arcs.find? (fun a => a.label == arc.label)).isSome) ↔
      ∃ a ∈ s.arcs, a.label = arc.label := by
    simp [List.find?_isSome]
  rw [addArc]
  split_ifs with h1 h2 h3
  · refine ⟨fun _ => ⟨rfl, rfl, by simp⟩, ?_⟩
    constructor
    · intro habs
      exact absurd (congrArg List.length habs) (by simp)
    · rintro ⟨hs, ht, hl, -⟩
      rcases h1 with h | h | h
      · exact absurd h hs
      · exact absurd h ht
      · exact absurd h hl
  · refine ⟨fun _ => ⟨rfl, rfl, by simp⟩, ?_⟩
    constructor
    · intro habs
      exact absurd (congrArg List.length habs) (by simp)
    · rintro ⟨-, -, -, hes, het, -⟩
      rcases h2 with h | h
      · exact absurd hes (hsrc.mp h)
      · exact absurd het (htgt.mp h)
  · refine ⟨fun _ => ⟨rfl, rfl, by simp⟩, ?_⟩
    constructor
    · intro habs
      exact absurd (congrArg List.length habs) (by simp)
    · rintro ⟨-, -, -, -, -, hnone⟩
      rcases hdup.mp h3 with ⟨a, ha, hlab⟩
      exact absurd hlab (hnone a ha)
  · push_neg at h1
    refine ⟨fun hdup2 => absurd (hdup.mpr hdup2) h3, ?_⟩
    constructor
    · intro _
      refine ⟨h1.1, h1.2.1, h1.2.2, ?_, ?_, ?_⟩
      · by_contra hc
        exact h2 (Or.inl (hsrc.mpr hc))
      · by_contra hc
        exact h2 (Or.inr (htgt.mpr hc))
      · intro a ha hlab
        exact h3 (hdup.mpr ⟨a, ha, hlab⟩)
    · intro _
      rfl

/-- C5 witness: a concrete duplicate-label rejection and a concrete
successful append, both through the C5 theorem. -/
theorem addArc_duplicate_label_rejected_and_append_iff_witness :
    ((∃ a ∈ sampleState.arcs, a.label = Arc.label ⟨"A", "B", none, "l2"⟩) →
      (addArc sampleState ⟨"A", "B", none, "l2"⟩).arcs = sampleState.arcs ∧
      (addArc sampleState ⟨"A", "B", none, "l2"⟩).locations = sampleState.locations ∧
      (addArc sampleState ⟨"A", "B", none, "l2"⟩).warnings.length =
        sampleState.warnings.length + 1) ∧
    ((addArc sampleState ⟨"A", "B", none, "l2"⟩).arcs =
        sampleState.arcs ++ [⟨"A", "B", none, "l2"⟩] ↔
      (Arc.source ⟨"A", "B", none, "l2"⟩ ≠ "" ∧
       Arc.target ⟨"A", "B", none, "l2"⟩ ≠ "" ∧
       Arc.label ⟨"A", "B", none, "l2"⟩ ≠ "" ∧
       (∃ l ∈ sampleState.locations, l.name = Arc.source ⟨"A", "B", none, "l2"⟩) ∧
       (∃ l ∈ sampleState.locations, l.name = Arc.target ⟨"A", "B", none, "l2"⟩) ∧
       ∀ a ∈ sampleState.arcs, a.label ≠ Arc.label ⟨"A", "B", none, "l2"⟩)) :=
  addArc_duplicate_label_rejected_and_append_iff sampleState ⟨"A", "B", none, "l2"⟩

/-- C6: `addLocation` rejects a location whose longitude is outside
`[-180, 180]` or whose latitude is outside `[-90, 90]` — the locations
list is unchanged and a warning is recorded — and appends a location
whose two-element coordinates array lies inside those ranges. -/
theorem addLocation_range_validation (s : GlobeState) (loc : Location) :
    (∀ lon lat : ℚ, loc.coordinates = [lon, lat] →
      (lon < -180 ∨ lon > 180 ∨ lat < -90 ∨ lat > 90) →
      (addLocation s loc).locations = s.locations ∧
      (addLocation s loc).warnings.length = s.warnings.length + 1) ∧
    (∀ lon lat : ℚ, loc.coordinates = [lon, lat] →
      -180 ≤ lon → lon ≤ 180 → -90 ≤ lat → lat ≤ 90 →
      (addLocation s loc).locations = s.locations ++ [loc] ∧
      (addLocation s loc).warnings = s.warnings) := by
  have hred : ∀ (name : String) (lon lat : ℚ),
      addLocation s ⟨name, [lon, lat]⟩ =
        if lon < -180 ∨ lon > 180 ∨ lat < -90 ∨ lat > 90 then
          { s with warnings := s.warnings ++ ["Invalid longitude or latitude values"] }
        else { s with locations := s.locations ++ [⟨name, [lon, lat]⟩] } :=
    fun _ _ _ => rfl
  obtain ⟨name, co⟩ := loc
  constructor
  · intro lon lat hco hrange
    cases hco
    rw [hred, if_pos hrange]
    exact ⟨rfl, by simp⟩
  · intro lon lat hco h1 h2 h3 h4
    cases hco
    rw [hred, if_neg (by push_neg; exact ⟨h1, h2, h3, h4⟩)]
    exact ⟨rfl, rfl⟩

/-- C7: `removeLocation name` leaves no location with that name, leaves
no arc whose source or target is that name, and keeps every location and
arc that does not reference the name. -/
theorem removeLocation_removes_all_references (s : GlobeState) (name : String) :
    (∀ l ∈ (removeLocation s name).locations, l.name ≠ name) ∧
    (∀ a ∈ (removeLocation s name).arcs, a.source ≠ name ∧ a.target ≠ name) ∧
    (∀ l ∈ s.locations, l.name ≠ name → l ∈ (removeLocation s name).locations) ∧
    (∀ a ∈ s.arcs, a.source ≠ name → a.target ≠ name →
      a ∈ (removeLocation s name).arcs) := by
  refine ⟨?_, ?_, ?_, ?_⟩
  · intro l hl
    have := List.mem_filter.mp hl
    simpa using this.2
  · intro a ha
    have := List.mem_filter.mp ha
    simpa using this.2
  · intro l hl hn
    exact List.mem_filter.mpr ⟨hl, by simpa using hn⟩
  · intro a ha h1 h2
    exact List.mem_filter.mpr ⟨ha, by simp [h1, h2]⟩

/-- C7 witness: removing `"A"` from the sample state through the C7
theorem — the surviving arc `"C" → "D"` does not reference `"A"`. -/
theorem removeLocation_removes_all_references_witness :
    Arc.source ⟨"C", "D", none, "l2"⟩ ≠ "A" ∧
    Arc.target ⟨"C", "D", none, "l2"⟩ ≠ "A" :=
  (removeLocation_removes_all_references sampleState "A").2.1
    ⟨"C", "D", none, "l2"⟩ (by decide)

/-- C8: arc-label uniqueness is checked only by `addArc`: in the sample
state the labels are pairwise distinct and `addArc` rejects a duplicate,
yet `updateArc "A" "B" _ "l2"` renames the first arc to the second arc's
label, so the all-labels-distinct invariant is not preserved by every
operation. -/
theorem updateArc_can_duplicate_labels :
    ((sampleState.arcs.map Arc.label).Nodup) ∧
    (addArc sampleState ⟨"A", "B", none, "l2"⟩).arcs = sampleState.arcs ∧
    ¬ (((updateArc sampleState "A" "B" (some "red") "l2").arcs.map
        Arc.label).Nodup) := by
  decide

/-- C9: the zoom handler clamps the requested scale into the configured
scale extent instead of rejecting it — the resulting scale always lies in
the extent, an in-range request is applied exactly, the programmatic
`setZoom` goes through the same clamped path, and `getZoom` returns the
projection's current scale. -/
theorem handleZoom_clamps_scale (z : ZoomBehavior) (p : Projection) (k : ℝ)
    (hext : z.scaleExtent.1 ≤ z.scaleExtent.2) :
    z.scaleExtent.1 ≤ getZoom (handleZoom z p k) ∧
    getZoom (handleZoom z p k) ≤ z.scaleExtent.2 ∧
    (z.scaleExtent.1 ≤ k → k ≤ z.scaleExtent.2 → getZoom (handleZoom z p k) = k) ∧
    setZoom z p k = handleZoom z p k ∧
    (∀ q : Projection, getZoom q = q.scale) := by
  refine ⟨le_max_left _ _, max_le hext (min_le_right _ _), ?_, rfl, fun _ => rfl⟩
  intro hlo hhi
  show max z.scaleExtent.1 (min k z.scaleExtent.2) = k
  rw [min_eq_left hhi, max_eq_right hlo]

/-- C9 witness: a concrete out-of-range request `k = 7` against the
extent `[1, 1]`, through the C9 theorem. -/
theorem handleZoom_clamps_scale_witness :
    (1 : ℝ) ≤ getZoom (handleZoom ⟨(1, 1)⟩ ⟨(0, 0), 5, (0, 0)⟩ 7) ∧
    getZoom (handleZoom ⟨(1, 1)⟩ ⟨(0, 0), 5, (0, 0)⟩ 7) ≤ 1 ∧
    ((1 : ℝ) ≤ 7 → (7 : ℝ) ≤ 1 →
      getZoom (handleZoom ⟨(1, 1)⟩ ⟨(0, 0), 5, (0, 0)⟩ 7) = 7) ∧
    setZoom ⟨(1, 1)⟩ ⟨(0, 0), 5, (0, 0)⟩ 7 = handleZoom ⟨(1, 1)⟩ ⟨(0, 0), 5, (0, 0)⟩ 7 ∧
    (∀ q : Projection, getZoom q = q.scale) :=
  handleZoom_clamps_scale ⟨(1, 1)⟩ ⟨(0, 0), 5, (0, 0)⟩ 7 (le_refl 1)

/-- C10: with an empty locations list `adjustProjectionToFitLocations`
performs no fitting at all — rotation, scale, translation and the zoom
scale extent are returned unchanged. -/
theorem adjustProjectionToFitLocations_empty_noop (p : Projection)
    (z : ZoomBehavior) (w h : ℝ) :
    adjustProjectionToFitLocations p z [] w h = (p, z) := by
  simp [adjustProjectionToFitLocations]

/-- C1 counterexample: at zoom level `1` (the scale `getZoom` returns) a
drag of `(dx, dy) = (2, 2)` changes the rotation to `(100, -100)`, not to
the claimed `(dx/2, -dy/2) = (1, -1)`: the handler multiplies the half
pixel delta by `100 / zoom`, not by `1 / zoom`. -/
theorem drag_at_zoom_one_not_half_delta :
    (makeGlobeDraggableOnDrag ⟨(0, 0), 1, (0, 0)⟩ 2 2).rotate ≠
      ((2 : ℝ) / 2, -((2 : ℝ) / 2)) := by
  have h1 : (makeGlobeDraggableOnDrag ⟨(0, 0), 1, (0, 0)⟩ 2 2).rotate.1 = 100 := by
    norm_num [makeGlobeDraggableOnDrag, getZoom]
  intro hc
  rw [hc] at h1
  norm_num at h1

/-- C1 (amended): a drag of `(dx, dy)` pixels changes the rotation by the
half pixel delta `(dx/2, -dy/2)` multiplied by `100 / zoom` with
`zoom = getZoom()`; the delta is exactly `(dx/2, -dy/2)` when the zoom
level is `100`, and is inversely proportional to the zoom level. -/
theorem makeGlobeDraggableOnDrag_rotation_delta (p : Projection) (dx dy : ℝ) :
    (makeGlobeDraggableOnDrag p dx dy).rotate.1 - p.rotate.1 =
      dx / 2 * (100 / getZoom p) ∧
    (makeGlobeDraggableOnDrag p dx dy).rotate.2 - p.rotate.2 =
      -(dy / 2) * (100 / getZoom p) ∧
    (getZoom p = 100 →
      (makeGlobeDraggableOnDrag p dx dy).rotate.1 - p.rotate.1 = dx / 2 ∧
      (makeGlobeDraggableOnDrag p dx dy).rotate.2 - p.rotate.2 = -(dy / 2)) ∧
    (getZoom p ≠ 0 →
      ((makeGlobeDraggableOnDrag p dx dy).rotate.1 - p.rotate.1) * getZoom p =
        dx / 2 * 100 ∧
      ((makeGlobeDraggableOnDrag p dx dy).rotate.2 - p.rotate.2) * getZoom p =
        -(dy / 2) * 100) := by
  refine ⟨by simp [makeGlobeDraggableOnDrag], by simp [makeGlobeDraggableOnDrag],
    ?_, ?_⟩
  · intro h100
    rw [getZoom] at h100
    constructor
    · simp [makeGlobeDraggableOnDrag, getZoom, h100]
    · simp [makeGlobeDraggableOnDrag, getZoom, h100]
  · intro hz
    rw [getZoom] at hz
    constructor
    · simp only [makeGlobeDraggableOnDrag, getZoom]
      field_simp
      ring
    · simp only [makeGlobeDraggableOnDrag, getZoom]
      field_simp
      ring

/-- C2: for a non-empty location list, `adjustProjectionToFitLocations`
sets the projection scale to
`(0.8 × min(width, height)/2) / sin(min(maxDistance, π/2))`, where
`maxDistance` bounds the angular distance from the spherical centroid to
every location, and the clamped distance never exceeds `π/2` (90°). -/
theorem adjustProjectionToFitLocations_scale_formula (p : Projection)
    (z : ZoomBehavior) (locs : List (ℝ × ℝ)) (w h : ℝ) (hne : locs ≠ []) :
    (adjustProjectionToFitLocations p z locs w h).1.scale =
      marginFactor * (min w h / 2) /
        Real.sin (min (maxCentroidDist locs) (Real.pi / 2)) ∧
    clampedMaxDist locs ≤ Real.pi / 2 ∧
    (∀ c ∈ locs, centroidDist locs c ≤ maxCentroidDist locs) := by
  have hlen : ¬ locs.length = 0 := by
    simpa [List.length_eq_zero] using hne
  refine ⟨?_, min_le_right _ _, ?_⟩
  · simp only [adjustProjectionToFitLocations]
    rw [if_neg hlen]
    rfl
  · intro c hc
    exact le_foldl_max _ 0 _ (List.mem_map_of_mem _ hc)

/-- C2 witness: a single location at `(0°, 0°)` in a `4 × 4` viewport,
instantiating the C2 theorem. -/
theorem adjustProjectionToFitLocations_scale_formula_witness :
    (adjustProjectionToFitLocations ⟨(0, 0), 1, (0, 0)⟩ ⟨(1, 1)⟩
        [((0 : ℝ), (0 : ℝ))] 4 4).1.scale =
      marginFactor * (min (4 : ℝ) 4 / 2) /
        Real.sin (min (maxCentroidDist [((0 : ℝ), (0 : ℝ))]) (Real.pi / 2)) ∧
    clampedMaxDist [((0 : ℝ), (0 : ℝ))] ≤ Real.pi / 2 ∧
    (∀ c ∈ [((0 : ℝ), (0 : ℝ))],
      centroidDist [((0 : ℝ), (0 : ℝ))] c ≤ maxCentroidDist [((0 : ℝ), (0 : ℝ))]) :=
  adjustProjectionToFitLocations_scale_formula _ _ _ _ _ (List.cons_ne_nil _ _)

/-- C4: when every location coincides with the computed centroid (a single
location, say), `maxDistance` is `0` and the required scale is
`(0.8 × radius) / sin 0` — an unguarded division by zero (JavaScript
evaluates it to `Infinity`) applied to the projection scale and to both
ends of the zoom scale extent; conversely, as soon as some location is
strictly separated from the centroid, the sine in the denominator is
strictly positive, so the division is well defined. -/
theorem adjustProjectionToFitLocations_degenerate_div_zero (p : Projection)
    (z : ZoomBehavior) (locs : List (ℝ × ℝ)) (w h : ℝ)
    (hall : ∀ c ∈ locs, centroidDist locs c = 0) (hne : locs ≠ []) :
    maxCentroidDist locs = 0 ∧
    Real.sin (clampedMaxDist locs) = 0 ∧
    (adjustProjectionToFitLocations p z locs w h).1.scale =
      marginFactor * (min w h / 2) / Real.sin 0 ∧
    (adjustProjectionToFitLocations p z locs w h).2.scaleExtent =
      (marginFactor * (min w h / 2) / Real.sin 0 / 10,
       marginFactor * (min w h / 2) / Real.sin 0 * 3) ∧
    (∀ locs2 : List (ℝ × ℝ), (∃ c ∈ locs2, 0 < centroidDist locs2 c) →
      0 < Real.sin (clampedMaxDist locs2)) := by
  have hmax : maxCentroidDist locs = 0 := by
    rw [maxCentroidDist]
    apply foldl_max_zero
    intro x hx
    rcases List.mem_map.mp hx with ⟨c, hc, rfl⟩
    exact hall c hc
  have hclamp : clampedMaxDist locs = 0 := by
    rw [clampedMaxDist, hmax]
    exact min_eq_left (by positivity)
  have hlen : ¬ locs.length = 0 := by simpa [List.length_eq_zero] using hne
  refine ⟨hmax, by rw [hclamp, Real.sin_zero], ?_, ?_, ?_⟩
  · simp only [adjustProjectionToFitLocations]
    rw [if_neg hlen]
    show requiredScale locs w h = _
    rw [requiredScale, hclamp]
  · simp only [adjustProjectionToFitLocations]
    rw [if_neg hlen]
    show (requiredScale locs w h / 10, requiredScale locs w h * 3) = _
    rw [requiredScale, hclamp]
  · rintro locs2 ⟨c, hc, hpos⟩
    have hmax2 : 0 < maxCentroidDist locs2 :=
      lt_of_lt_of_le hpos (le_foldl_max _ 0 _ (List.mem_map_of_mem _ hc))
    have hcl : 0 < clampedMaxDist locs2 := lt_min hmax2 (by positivity)
    apply Real.sin_pos_of_pos_of_lt_pi hcl
    calc clampedMaxDist locs2 ≤ Real.pi / 2 := min_le_right _ _
      _ < Real.pi := by linarith [Real.pi_pos]

/-- C4 witness: a single location at `(0°, 0°)` — which is its own
centroid — in a `4 × 4` viewport, instantiating the C4 theorem. -/
theorem adjustProjectionToFitLocations_degenerate_div_zero_witness :
    maxCentroidDist [((0 : ℝ), (0 : ℝ))] = 0 ∧
    Real.sin (clampedMaxDist [((0 : ℝ), (0 : ℝ))]) = 0 ∧
    (adjustProjectionToFitLocations ⟨(0, 0), 1, (0, 0)⟩ ⟨(1, 1)⟩
        [((0 : ℝ), (0 : ℝ))] 4 4).1.scale =
      marginFactor * (min (4 : ℝ) 4 / 2) / Real.sin 0 ∧
    (adjustProjectionToFitLocations ⟨(0, 0), 1, (0, 0)⟩ ⟨(1, 1)⟩
        [((0 : ℝ), (0 : ℝ))] 4 4).2.scaleExtent =
      (marginFactor * (min (4 : ℝ) 4 / 2) / Real.sin 0 / 10,
       marginFactor * (min (4 : ℝ) 4 / 2) / Real.sin 0 * 3) ∧
    (∀ locs2 : List (ℝ × ℝ), (∃ c ∈ locs2, 0 < centroidDist locs2 c) →
      0 < Real.sin (clampedMaxDist locs2)) :=
  adjustProjectionToFitLocations_degenerate_div_zero _ _ _ 4 4
    (List.forall_mem_singleton.mpr (centroidDist_single (0, 0)))
    (List.cons_ne_nil _ _)

/-- C3 counterexample: with the view centred on `(0°, 0°)`, the arc from
`"A" = (0°, 0°)` to `"B" = (90°, 0°)` IS drawn although endpoint `"B"`
lies at angular distance exactly `π/2` (90°) from the view center — it
fails the strict `< 90°` test (and its point marker is indeed not drawn).
The code skips an arc only when an endpoint distance strictly exceeds
`π/2`, so "drawn iff both endpoints are at `< 90°`" is false, as is "an
endpoint at `≥ 90°` is never rendered". -/
theorem arc_drawn_with_endpoint_at_horizon :
    (renderArc [⟨"A", (0, 0)⟩, ⟨"B", (90, 0)⟩] (0, 0)
        ⟨"A", "B", none, "AB"⟩).isSome ∧
    ¬ (geoDistance ((90 : ℝ), 0) (viewCenter (0, 0)) < Real.pi / 2) ∧
    renderPoint (0, 0) ⟨"B", (90, 0)⟩ = none := by
  have hvc : viewCenter ((0 : ℝ), (0 : ℝ)) = (0, 0) := by simp [viewCenter]
  have hd90 : geoDistance ((90 : ℝ), 0) (viewCenter (0, 0)) = Real.pi / 2 := by
    rw [hvc, geoDistance_ninety_zero]
  have hd0 : geoDistance ((0 : ℝ), 0) (viewCenter (0, 0)) = 0 := by
    rw [hvc]
    exact geoDistance_self (0, 0)
  refine ⟨?_, by rw [hd90]; exact lt_irrefl _, ?_⟩
  · have hfA : ([⟨"A", (0, 0)⟩, ⟨"B", (90, 0)⟩] : List GeoLocation).find?
        (fun l => l.name == "A") = some ⟨"A", (0, 0)⟩ := rfl
    have hfB : ([⟨"A", (0, 0)⟩, ⟨"B", (90, 0)⟩] : List GeoLocation).find?
        (fun l => l.name == "B") = some ⟨"B", (90, 0)⟩ := rfl
    simp only [renderArc, hfA, hfB]
    rw [if_neg]
    · rfl
    · push_neg
      constructor
      · rw [hd0]
        positivity
      · rw [hd90]
  · rw [renderPoint, if_neg]
    rw [hd90]
    exact lt_irrefl _

/-- C3 (amended): a location point is drawn iff its angular distance from
the view center is strictly less than 90°; an arc is drawn iff both its
endpoint locations resolve and both lie at angular distance at most 90°
(the boundary case of exactly 90° is included for arcs, excluded for
points); an arc is never partially clipped — it is entirely shown or
entirely hidden, as `renderArc` yields the whole endpoint-to-endpoint
path or nothing. -/
theorem render_culling_characterisation (locs : List GeoLocation)
    (rotate : ℝ × ℝ) (loc : GeoLocation) (arc : Arc) :
    ((renderPoint rotate loc).isSome ↔
      geoDistance loc.coords (viewCenter rotate) < Real.pi / 2) ∧
    (loc ∈ highlightPoints rotate locs ↔
      loc ∈ locs ∧ geoDistance loc.coords (viewCenter rotate) < Real.pi / 2) ∧
    ((renderArc locs rotate arc).isSome ↔
      ∃ s t : GeoLocation,
        locs.find? (fun l => l.name == arc.source) = some s ∧
        locs.find? (fun l => l.name == arc.target) = some t ∧
        geoDistance s.coords (viewCenter rotate) ≤ Real.pi / 2 ∧
        geoDistance t.coords (viewCenter rotate) ≤ Real.pi / 2) := by
  refine ⟨?_, ?_, ?_⟩
  · by_cases hd : geoDistance loc.coords (viewCenter rotate) < Real.pi / 2
    · simp [renderPoint, hd]
    · simp [renderPoint, hd]
  · constructor
    · intro hmem
      rcases List.mem_filterMap.mp hmem with ⟨a, ha, hsome⟩
      rw [renderPoint] at hsome
      by_cases hd : geoDistance a.coords (viewCenter rotate) < Real.pi / 2
      · rw [if_pos hd] at hsome
        rcases Option.some.inj hsome with rfl
        exact ⟨ha, hd⟩
      · rw [if_neg hd] at hsome
        exact Option.noConfusion hsome
    · rintro ⟨hmem, hd⟩
      exact List.mem_filterMap.mpr ⟨loc, hmem, by rw [renderPoint, if_pos hd]⟩
  · constructor
    · intro hsome
      rcases hfs : locs.find? (fun l => l.name == arc.source) with _ | s
      all_goals rcases hft : locs.find? (fun l => l.name == arc.target) with _ | t
      all_goals simp only [renderArc, hfs, hft] at hsome
      · simp at hsome
      · simp at hsome
      · simp at hsome
      · split_ifs at hsome with hcond
        · simp at hsome
        · push_neg at hcond
          exact ⟨s, t, hfs, hft, hcond.1, hcond.2⟩
    · rintro ⟨s, t, hfs, hft, hds, hdt⟩
      simp only [renderArc, hfs, hft]
      rw [if_neg]
      · rfl
      · push_neg
        exact ⟨hds, hdt⟩

end Globe
